import Mathlib

set_option maxRecDepth 40000

/-
Shallow embedding of the WebAssembly neural-style-transfer pipeline:

* `crates/stylizer/src/lib.rs` — pixel/tensor codec (`bilinear_resize_rgba`,
  `nchw_from_rgba`, `rgba_from_nchw`), the orchestrator `run_style`, and the
  blend helper `blend_rgba`;
* `rust-core/src/onnx_engine.rs` — the model registry, cache and loader
  (`initialize_model_registry`, `load_model`, `validate_onnx_model`,
  `get_available_styles`);
* `rust-core/src/engine.rs` — `transfer_style` with its progress callback.

Modelling conventions:
* `u8` bytes are `ℕ`; where a property needs the 8-bit range, `b ≤ 255`
  appears as a hypothesis.  `u32`/`usize` are `ℕ`.
* `f32` arithmetic is modelled as exact rational arithmetic over `ℚ`.
  Rust's `f32::round` (round half away from zero) agrees with `⌊q + 1/2⌋`
  for the non-negative values produced at its call sites; `as u8` casts
  saturate to `[0,255]` and truncate toward zero, which on the values in
  range equals `Int.floor` composed with clamping.
* Out-of-bounds slice indexing (a Rust panic) is modelled by `Option`:
  `none` is a panic, `some` a normal return.  Each codec function therefore
  carries a decidable guard computing exactly the in-bounds condition of the
  loops in the source.
* The wonnx inference call and the browser fetch are external collaborators;
  they enter as function parameters (`infer`, `fetch`).
* Rust's `HashMap` is an insertion-ordered association list (`insertA`
  replaces on key collision, exactly like `HashMap::insert`); its
  unspecified iteration order is exposed as a `hash : String → ℕ` rank
  parameter, and key iteration enumerates keys sorted by that rank.
-/

namespace NeuralStyleWasm

/-! ### Rust scalar casts -/

/-- Rust `f32::round` for the non-negative arguments at its call sites:
round half away from zero, which for `q ≥ 0` is `⌊q + 1/2⌋`. -/
def rround (q : ℚ) : ℤ := ⌊q + 1/2⌋

/-- Rust `.round() as u8` (and `.round().clamp(0.0, 255.0) as u8`):
round, then saturating-cast to `u8`. -/
def u8castRound (q : ℚ) : ℕ := (min 255 (max 0 (rround q))).toNat

/-- Rust `.clamp(0.0, 255.0) as u8`: clamp to `[0, 255]`, then truncating
cast to `u8`. -/
def u8clampFloor (q : ℚ) : ℕ := (⌊min 255 (max 0 q)⌋).toNat

/-! ### crates/stylizer/src/lib.rs — pixel/tensor codec -/

/-- The four source-pixel coordinates `(x_l, x_h, y_l, y_h)` read by
`bilinear_resize_rgba` for destination pixel `(x, y)`.  Mirrors

    let x_ratio = (sw - 1) as f32 / dw as f32;
    let fx = x as f32 * x_ratio;
    let x_l = fx.floor() as u32;
    let x_h = (x_l + 1).min(sw - 1);

(`fx ≥ 0`, so `as u32` is `Int.toNat ∘ Int.floor`; `sw - 1` is `ℕ`
subtraction, the function is never called with `sw = 0` or `sh = 0` by the
claims below). -/
def bilinCorners (sw sh dw dh x y : ℕ) : ℕ × ℕ × ℕ × ℕ :=
  let xr : ℚ := ((sw - 1 : ℕ) : ℚ) / (dw : ℚ)
  let yr : ℚ := ((sh - 1 : ℕ) : ℚ) / (dh : ℚ)
  let xl : ℕ := (⌊(x : ℚ) * xr⌋).toNat
  let yl : ℕ := (⌊(y : ℚ) * yr⌋).toNat
  (xl, min (xl + 1) (sw - 1), yl, min (yl + 1) (sh - 1))

/-- The interpolated (pre-rounding) value of channel `c` of destination
pixel `(x, y)` in `bilinear_resize_rgba`. -/
def bilinChan (src : List ℕ) (sw sh dw dh x y c : ℕ) : ℚ :=
  match bilinCorners sw sh dw dh x y with
  | (xl, xh, yl, yh) =>
    let fx : ℚ := (x : ℚ) * (((sw - 1 : ℕ) : ℚ) / (dw : ℚ))
    let fy : ℚ := (y : ℚ) * (((sh - 1 : ℕ) : ℚ) / (dh : ℚ))
    let xw : ℚ := fx - (xl : ℚ)
    let yw : ℚ := fy - (yl : ℚ)
    let p00 : ℚ := (src.getD ((yl * sw + xl) * 4 + c) 0 : ℕ)
    let p10 : ℚ := (src.getD ((yl * sw + xh) * 4 + c) 0 : ℕ)
    let p01 : ℚ := (src.getD ((yh * sw + xl) * 4 + c) 0 : ℕ)
    let p11 : ℚ := (src.getD ((yh * sw + xh) * 4 + c) 0 : ℕ)
    (p00 * (1 - xw) + p10 * xw) * (1 - yw) + (p01 * (1 - xw) + p11 * xw) * yw

/-- In-bounds condition for every `src` read performed by the interpolation
loops of `bilinear_resize_rgba` (channels run over `c < 4`, so the largest
offset per corner pixel is `+3`). -/
def bilinReadsOk (len sw sh dw dh : ℕ) : Bool :=
  (List.range dh).all fun y => (List.range dw).all fun x =>
    match bilinCorners sw sh dw dh x y with
    | (xl, xh, yl, yh) =>
      decide ((yl * sw + xl) * 4 + 3 < len ∧ (yl * sw + xh) * 4 + 3 < len ∧
        (yh * sw + xl) * 4 + 3 < len ∧ (yh * sw + xh) * 4 + 3 < len)

/-- `bilinear_resize_rgba` from `crates/stylizer/src/lib.rs`.  The identity
fast path returns the input buffer unchanged; otherwise the destination
buffer of length `dw*dh*4` is filled pixel by pixel (destination index
`(y*dw + x)*4 + c` becomes `j` with `y = j/4/dw`, `x = (j/4) % dw`,
`c = j % 4`).  `none` models the out-of-bounds panic. -/
def bilinear_resize_rgba (src : List ℕ) (sw sh dw dh : ℕ) : Option (List ℕ) :=
  if sw = dw ∧ sh = dh then some src
  else if bilinReadsOk src.length sw sh dw dh then
    some ((List.range (dw * dh * 4)).map fun j =>
      u8castRound (bilinChan src sw sh dw dh ((j / 4) % dw) (j / 4 / dw) (j % 4)))
  else none

/-- In-bounds condition for the reads `rgba[(y*w + x)*4 + {0,1,2}]` of
`nchw_from_rgba`. -/
def nchwReadsOk (len w h : ℕ) : Bool :=
  (List.range h).all fun y => (List.range w).all fun x =>
    decide ((y * w + x) * 4 + 2 < len)

/-- `nchw_from_rgba` from `crates/stylizer/src/lib.rs`: normalize each of
R, G, B as `((channel/255 − mean_c) / std_c) * scale` and write it into the
channel plane (output index `ch * (w*h) + (y*w + x)`, i.e. `j` with
`ch = j / (w*h)` and `idx = j % (w*h)`; the pixel read is
`rgba[idx*4 + ch]`).  Alpha is dropped; there is no dimension check, and
`none` models only the out-of-bounds panic. -/
def nchw_from_rgba (rgba : List ℕ) (w h : ℕ) (mean std : ℕ → ℚ) (scale : ℚ) :
    Option (List ℚ) :=
  if nchwReadsOk rgba.length w h then
    some ((List.range (3 * (w * h))).map fun j =>
      let ch := j / (w * h)
      let idx := j % (w * h)
      (((rgba.getD (idx * 4 + ch) 0 : ℕ) : ℚ) / 255 - mean ch) / std ch * scale)
  else none

/-- In-bounds condition for the reads `data[{0,1,2} * plane + idx]` of
`rgba_from_nchw` (the largest index is `2*plane + idx`). -/
def nchwPlaneReadsOk (len plane : ℕ) : Bool :=
  (List.range plane).all fun idx => decide (2 * plane + idx < len)

/-- `rgba_from_nchw` from `crates/stylizer/src/lib.rs`: invert the
normalization per channel as `(plane_value / scale) * std_c + mean_c`, scale
by 255, clamp to `[0, 255]`, truncate to `u8`, and force alpha to 255
(output index `(y*w + x)*4 + c` becomes `j` with `idx = j/4`, `c = j % 4`). -/
def rgba_from_nchw (data : List ℚ) (w h : ℕ) (mean std : ℕ → ℚ) (scale : ℚ) :
    Option (List ℕ) :=
  if nchwPlaneReadsOk data.length (w * h) then
    some ((List.range (w * h * 4)).map fun j =>
      let idx := j / 4
      let c := j % 4
      if c = 3 then 255
      else u8clampFloor ((data.getD (c * (w * h) + idx) 0 / scale * std c + mean c) * 255))
  else none

/-- `ModelMeta` from `crates/stylizer/src/lib.rs` (the wonnx `Session` of
`State` is replaced by the `infer` parameter of `run_style`). -/
structure ModelMeta where
  model_url : String
  input_name : String
  output_name : String
  input_width : ℕ
  input_height : ℕ
  scale : ℚ
  mean : ℕ → ℚ
  std : ℕ → ℚ

/-- `run_style` from `crates/stylizer/src/lib.rs`: resize the input to the
model resolution, encode to an NCHW tensor, run inference (`infer` models
`session.run` followed by extraction of the named output; `none` is a run
failure or a missing output), and decode at the model resolution.  The
source returns this buffer as is: "Return (model resolution). Frontend can
scale back to original size & blend." -/
def run_style (meta : ModelMeta) (infer : List ℚ → Option (List ℚ))
    (rgba : List ℕ) (w h : ℕ) : Option (List ℕ) := do
  let resized ← bilinear_resize_rgba rgba w h meta.input_width meta.input_height
  let input ← nchw_from_rgba resized meta.input_width meta.input_height
    meta.mean meta.std meta.scale
  let out ← infer input
  rgba_from_nchw out meta.input_width meta.input_height meta.mean meta.std meta.scale

/-- Result of `blend_rgba`: normal return, the `InvalidDims` error, or an
out-of-bounds panic. -/
inductive BlendRes where
  | ok (out : List ℕ)
  | errInvalidDims
  | panicked
deriving DecidableEq

/-- `blend_rgba` from `crates/stylizer/src/lib.rs`: length mismatch is
`StylizerError::InvalidDims`; strength is clamped to `[0,1]`; per pixel the
R, G, B bytes become `round((1−a)*base + a*top)` and the alpha byte is
forced to 255.  The loop steps by 4 and touches `i .. i+3`, so it panics
exactly when the (equal) length is not a multiple of 4. -/
def blend_rgba (base top : List ℕ) (width height : ℕ) (strength : ℚ) : BlendRes :=
  if base.length ≠ top.length then .errInvalidDims
  else if base.length % 4 = 0 then
    let a := min 1 (max 0 strength)
    .ok ((List.range base.length).map fun i =>
      if i % 4 = 3 then 255
      else u8castRound ((1 - a) * ((base.getD i 0 : ℕ) : ℚ) + a * ((top.getD i 0 : ℕ) : ℚ)))
  else .panicked

/-! ### rust-core/src/onnx_engine.rs — registry, cache and loader -/

/-- `ONNXModelMetadata` from `rust-core/src/onnx_engine.rs`. -/
structure ONNXModelMetadata where
  name : String
  url : String
  size_bytes : ℕ
  input_shape : List ℤ
  output_shape : List ℤ
  input_tensor_name : String
  output_tensor_name : String
  recommended_resolution : ℕ × ℕ
  style_description : String
deriving DecidableEq

/-- `HashMap::insert`: replace the value if the key is present, else append
the new binding (association-list model of the map contents, kept in
insertion order). -/
def insertA {α : Type} (k : String) (v : α) : List (String × α) → List (String × α)
  | [] => [(k, v)]
  | (k', v') :: t => if k' = k then (k, v) :: t else (k', v') :: insertA k v t

/-- `HashMap::get` on the association-list model. -/
def lookupA {α : Type} (k : String) : List (String × α) → Option α
  | [] => none
  | (k', v) :: t => if k' = k then some v else lookupA k t

def vanGoghName : String := "van-gogh"
def picassoName : String := "picasso"
def cyberpunkName : String := "cyberpunk"
def watercolorName : String := "watercolor"
def oilPaintingName : String := "oil-painting"

def vanGoghMetadata : ONNXModelMetadata :=
  ⟨vanGoghName, "/models/van_gogh_style_transfer.onnx", 6800000,
    [1, 3, 256, 256], [1, 3, 256, 256], "input", "output", (256, 256),
    "Impressionist style inspired by Van Gogh\x27s Starry Night with swirling brushstrokes"⟩

def picassoMetadata : ONNXModelMetadata :=
  ⟨picassoName, "/models/picasso_style_transfer.onnx", 7200000,
    [1, 3, 256, 256], [1, 3, 256, 256], "input", "output", (256, 256),
    "Cubist abstraction inspired by Picasso\x27s geometric forms and bold colors"⟩

def cyberpunkMetadata : ONNXModelMetadata :=
  ⟨cyberpunkName, "/models/cyberpunk_style_transfer.onnx", 8100000,
    [1, 3, 256, 256], [1, 3, 256, 256], "input", "output", (256, 256),
    "Futuristic cyberpunk aesthetic with neon colors and digital effects"⟩

def watercolorMetadata : ONNXModelMetadata :=
  ⟨watercolorName, "/models/watercolor_style_transfer.onnx", 5900000,
    [1, 3, 256, 256], [1, 3, 256, 256], "input", "output", (256, 256),
    "Soft watercolor painting style with flowing colors and gentle blending"⟩

def oilPaintingMetadata : ONNXModelMetadata :=
  ⟨oilPaintingName, "/models/oil_painting_style_transfer.onnx", 9500000,
    [1, 3, 256, 256], [1, 3, 256, 256], "input", "output", (256, 256),
    "Classical oil painting style with rich textures and deep colors"⟩

/-- `initialize_model_registry`: the five styles are inserted in the order
van-gogh, picasso, cyberpunk, watercolor, oil-painting (innermost insert
first). -/
def initialize_model_registry : List (String × ONNXModelMetadata) :=
  insertA oilPaintingName oilPaintingMetadata
    (insertA watercolorName watercolorMetadata
      (insertA cyberpunkName cyberpunkMetadata
        (insertA picassoName picassoMetadata
          (insertA vanGoghName vanGoghMetadata []))))

/-- The three `HashMap` fields of `ONNXStyleTransferEngine`. -/
structure EngineState where
  models : List (String × List ℕ)
  model_metadata : List (String × ONNXModelMetadata)
  loaded_models : List (String × Bool)
deriving DecidableEq

/-- `ONNXStyleTransferEngine::new()`: empty model cache, registry
initialized. -/
def engineNew : EngineState := ⟨[], initialize_model_registry, []⟩

/-- `validate_onnx_model` from `rust-core/src/onnx_engine.rs`: reject
payloads shorter than 100 bytes, then accept exactly the payloads longer
than 1000 bytes ("Simplified validation for now" — the bytes themselves are
never read). -/
def validate_onnx_model (model_data : List ℕ) : Bool :=
  if model_data.length < 100 then false
  else decide (model_data.length > 1000)

/-- Outcome of `load_model` (the source returns `Result<(), JsValue>` with
message strings; only the case matters here). -/
inductive LoadResult where
  | ok
  | styleNotAvailable
  | downloadFailed
  | invalidModel
deriving DecidableEq

/-- `load_model` from `rust-core/src/onnx_engine.rs`.  `fetch` is the
external byte-fetch collaborator (`download_model`; `none` is any download
failure).  The returned `Bool` records whether the fetch collaborator was
invoked.  On a fresh success the payload is stored in `models` and the
`loaded_models` flag is set; on failure the state is unchanged. -/
def load_model (st : EngineState) (style_name : String)
    (fetch : String → Option (List ℕ)) : EngineState × LoadResult × Bool :=
  match lookupA style_name st.model_metadata with
  | none => (st, .styleNotAvailable, false)
  | some metadata =>
    if (lookupA style_name st.loaded_models).getD false then (st, .ok, false)
    else
      match fetch metadata.url with
      | none => (st, .downloadFailed, true)
      | some model_data =>
        if ¬ validate_onnx_model model_data then (st, .invalidModel, true)
        else
          (⟨insertA style_name model_data st.models,
            st.model_metadata,
            insertA style_name true st.loaded_models⟩, .ok, true)

/-- `get_available_styles` from `rust-core/src/onnx_engine.rs`:
`self.model_metadata.keys().cloned().collect()`.  `HashMap` key iteration
order is unspecified; it is modelled as the keys sorted by an arbitrary
rank function `hash` fixed per map instance (deterministic for a fixed map
and rank, but unrelated to insertion order). -/
def get_available_styles (hash : String → ℕ) (st : EngineState) : List String :=
  List.insertionSort (fun a b => hash a ≤ hash b) (st.model_metadata.map Prod.fst)

/-- Registration order of the five built-in styles, for comparison with
`get_available_styles`. -/
def registrationOrder : List String :=
  [vanGoghName, picassoName, cyberpunkName, watercolorName, oilPaintingName]

/-! ### rust-core/src/engine.rs — `transfer_style` and its callback -/

/-- The `StyleTransferEngine` state used by `transfer_style`: the
`initialized` flag and the names present in `models` (the `StyleModel`
values themselves are never read by `transfer_style`). -/
structure EngineS where
  initialized : Bool
  models : List String
deriving DecidableEq

/-- One invocation of the JS progress callback: it either returns normally
or throws a value (propagated by `?` in the source). -/
inductive CbOut where
  | done
  | threw (msg : String)
deriving DecidableEq

/-- Result of `transfer_style`. -/
inductive TransferOut where
  | ok (out : List ℕ)
  | err (msg : String)
deriving DecidableEq

def engineNotInitMsg : String := "Engine not initialized"
def styleNotLoadedMsg : String := "Style not loaded"

/-- The per-pixel colour transform of `transfer_style` (pre-clamping
values), one branch per style arm of the `match`; `i` is the byte index of
the pixel's R channel and `sf` the normalized strength.  `sinF`/`cosF`
stand for `f32::sin`/`f32::cos`. -/
def stylePixel (sinF cosF : ℚ → ℚ) (style_name : String) (sf : ℚ) (i : ℕ)
    (r g b : ℚ) : ℚ × ℚ × ℚ :=
  if style_name = vanGoghName then
    let texture := sinF ((i : ℚ) * 0.1) * sf * 15
    (r * (1 + sf * 0.4) + sf * 20 + texture,
     g * (1 + sf * 0.3) + sf * 15 + texture,
     b * (1 - sf * 0.3) - sf * 10 + texture)
  else if style_name = picassoName then
    let pattern : ℚ := if (i / 4) % 2 = 0 then 1 else 0.8
    (r * (1 - sf * 0.4) * pattern,
     (g * (1 + sf * 0.5) + sf * 25) * pattern,
     (b * (1 + sf * 0.4) + sf * 20) * pattern)
  else if style_name = cyberpunkName then
    let glow := sinF ((i : ℚ) * 0.05) * sf * 30
    (r * (1 + sf * 0.8) + sf * 40 + glow,
     g * (1 - sf * 0.5) + glow * 0.3,
     b * (1 + sf * 1.0) + sf * 50 + glow)
  else if style_name = watercolorName then
    let flow := sinF ((i : ℚ) * 0.02) * sf * 20
    (r * (1 + sf * 0.2) + sf * 10 + flow,
     g * (1 + sf * 0.3) + sf * 15 + flow,
     b * (1 + sf * 0.2) + sf * 10 + flow)
  else if style_name = oilPaintingName then
    let texture := cosF ((i : ℚ) * 0.03) * sf * 25
    (r * (1 + sf * 0.6) + sf * 30 + texture,
     g * (1 + sf * 0.5) + sf * 25 + texture,
     b * (1 + sf * 0.4) + sf * 20 + texture)
  else
    let brightness := (r + g + b) / 3
    let enhancement := if brightness < 128 then sf * 0.3 else sf * 0.1
    (r * (1 + enhancement), g * (1 + enhancement), b * (1 + enhancement))

/-- The pixel loop of `transfer_style`: `processed_data` starts as a copy of
the image; for each `i` in steps of 4 with `i + 2 < len`, bytes `i`,
`i+1`, `i+2` are rewritten as `clamp(...) as u8` of the style transform
(each pixel is written once, reading only its own original bytes, so the
loop is equivalent to this index map); byte `i+3` (alpha) and any trailing
partial pixel stay unchanged. -/
def transfer_process (sinF cosF : ℚ → ℚ) (style_name : String) (sf : ℚ)
    (image : List ℕ) : List ℕ :=
  (List.range image.length).map fun k =>
    let i := 4 * (k / 4)
    if k % 4 = 3 ∨ ¬ (i + 2 < image.length) then image.getD k 0
    else
      match stylePixel sinF cosF style_name sf i
        ((image.getD i 0 : ℕ) : ℚ) ((image.getD (i+1) 0 : ℕ) : ℚ)
        ((image.getD (i+2) 0 : ℕ) : ℚ) with
      | (r, g, b) =>
        if k % 4 = 0 then u8clampFloor r
        else if k % 4 = 1 then u8clampFloor g
        else u8clampFloor b

/-- `transfer_style` from `rust-core/src/engine.rs`: guard on
`initialized`, look up the style in `models`, then invoke the progress
callback at 20, 50 and 100, normalizing the strength by 100 and applying
the per-style transform in between.  Each `progress_callback.call1(...)?`
propagates a thrown callback value as the function's own error. -/
def transfer_style (sinF cosF : ℚ → ℚ) (st : EngineS) (image_data : List ℕ)
    (style_name : String) (style_strength : ℚ)
    (progress_callback : ℕ → CbOut) : TransferOut :=
  if st.initialized = false then .err engineNotInitMsg
  else if st.models.contains style_name = false then .err styleNotLoadedMsg
  else
    match progress_callback 20 with
    | .threw e => .err e
    | .done =>
      let strength_factor := style_strength / 100
      match progress_callback 50 with
      | .threw e => .err e
      | .done =>
        let processed := transfer_process sinF cosF style_name strength_factor image_data
        match progress_callback 100 with
        | .threw e => .err e
        | .done => .ok processed

/-! ### Concrete instances used by specific claims -/

/-- A 1×1 model with identity normalization, for exercising `run_style`. -/
def c1Meta : ModelMeta :=
  ⟨"/models/small.onnx", "input", "output", 1, 1, 1, fun _ => 0, fun _ => 1⟩

/-- A 2×2 source image (16 bytes). -/
def c1SrcImg : List ℕ :=
  [10, 20, 30, 40, 50, 60, 70, 80, 90, 100, 110, 120, 130, 140, 150, 160]

/-- A byte-fetch collaborator returning a 1001-byte payload (accepted by
`validate_onnx_model`). -/
def c5Fetch : String → Option (List ℕ) := fun _ => some (List.replicate 1001 0)

/-- The engine state, result and fetch flag after one `load_model` of
van-gogh from the freshly initialized engine. -/
def c5Triple : EngineState × LoadResult × Bool := load_model engineNew vanGoghName c5Fetch

/-- A rank function that sends van-gogh after every other key. -/
def c8Hash : String → ℕ := fun s => if s = vanGoghName then 1 else 0

def c9Style : String := "any-style"
def boomMsg : String := "boom"

/-! ### Helper lemmas -/

theorem getD_map_range {α : Type} (f : ℕ → α) (n i : ℕ) (d : α) :
    ((List.range n).map f).getD i d = if i < n then f i else d := by
  by_cases h : i < n
  · rw [if_pos h, List.getD_eq_getElem _ _ (by simpa using h)]
    simp
  · rw [if_neg h, List.getD_eq_default _ _ (by simpa using Nat.le_of_not_lt h)]

theorem mul_index_lt {y x w h : ℕ} (hy : y < h) (hx : x < w) : y * w + x < w * h := by
  calc y * w + x < y * w + w := by omega
    _ = (y + 1) * w := by ring
    _ ≤ h * w := Nat.mul_le_mul_right w hy
    _ = w * h := Nat.mul_comm h w

theorem nchwReadsOk_true {len w h : ℕ} (hlen : w * h * 4 ≤ len) :
    nchwReadsOk len w h = true := by
  simp only [nchwReadsOk, List.all_eq_true, List.mem_range, decide_eq_true_eq]
  intro y hy x hx
  have h1 := mul_index_lt hy hx
  omega

theorem nchwPlaneReadsOk_true {len plane : ℕ} (h3 : 3 * plane ≤ len) :
    nchwPlaneReadsOk len plane = true := by
  simp only [nchwPlaneReadsOk, List.all_eq_true, List.mem_range, decide_eq_true_eq]
  intro idx hidx
  omega

theorem rround_natCast (b : ℕ) : rround (b : ℚ) = b := by
  unfold rround
  rw [add_comm, Int.floor_add_nat]
  norm_num

theorem u8castRound_byte {b : ℕ} (hb : b ≤ 255) : u8castRound (b : ℚ) = b := by
  unfold u8castRound
  rw [rround_natCast, max_eq_right (by positivity), min_eq_right (by exact_mod_cast hb)]
  simp

theorem u8clampFloor_byte {b : ℕ} (hb : b ≤ 255) : u8clampFloor (b : ℚ) = b := by
  unfold u8clampFloor
  rw [max_eq_right (by positivity), min_eq_right (by exact_mod_cast hb), Int.floor_natCast]
  simp

theorem getD_le_of_mem {l : List ℕ} (hl : ∀ x ∈ l, x ≤ 255) {i : ℕ}
    (hi : i < l.length) : l.getD i 0 ≤ 255 := by
  rw [List.getD_eq_getElem _ _ hi]
  exact hl _ (List.getElem_mem hi)

theorem lookupA_insertA_self {α : Type} (k : String) (v : α)
    (l : List (String × α)) : lookupA k (insertA k v l) = some v := by
  induction l with
  | nil => simp [insertA, lookupA]
  | cons p t ih =>
    obtain ⟨k', v'⟩ := p
    by_cases hk : k' = k
    · simp [insertA, hk, lookupA]
    · simp [insertA, hk, lookupA, ih]

theorem clamp01_idem (s : ℚ) :
    min 1 (max 0 (min 1 (max 0 s))) = min 1 (max 0 s) := by
  have h0 : (0 : ℚ) ≤ min 1 (max 0 s) := le_min (by norm_num) (le_max_left 0 s)
  rw [max_eq_right h0, min_eq_right (min_le_left _ _)]

theorem plane_div_mod {B c pN : ℕ} (hB : 0 < B) (hp : pN < B) :
    (c * B + pN) / B = c ∧ (c * B + pN) % B = pN := by
  constructor
  · rw [Nat.add_comm, Nat.mul_comm, Nat.add_mul_div_left _ _ hB, Nat.div_eq_of_lt hp]
    omega
  · rw [Nat.add_comm, Nat.add_mul_mod_self_right, Nat.mod_eq_of_lt hp]

theorem rgba_from_nchw_length {data : List ℚ} {w h : ℕ} {mean std : ℕ → ℚ}
    {scale : ℚ} {out : List ℕ}
    (hout : rgba_from_nchw data w h mean std scale = some out) :
    out.length = w * h * 4 := by
  unfold rgba_from_nchw at hout
  split at hout
  · obtain rfl := Option.some.inj hout
    simp
  · cases hout

theorem nchw_some_of_length {rgba : List ℕ} {w h : ℕ} (mean std : ℕ → ℚ)
    (scale : ℚ) (hlen : w * h * 4 ≤ rgba.length) :
    ∃ t, nchw_from_rgba rgba w h mean std scale = some t ∧
      t.length = 3 * (w * h) := by
  unfold nchw_from_rgba
  rw [if_pos (nchwReadsOk_true hlen)]
  exact ⟨_, rfl, by simp⟩

theorem rgba_some_of_length {data : List ℚ} {w h : ℕ} (mean std : ℕ → ℚ)
    (scale : ℚ) (hlen : 3 * (w * h) ≤ data.length) :
    ∃ out, rgba_from_nchw data w h mean std scale = some out ∧
      out.length = w * h * 4 := by
  unfold rgba_from_nchw
  rw [if_pos (nchwPlaneReadsOk_true hlen)]
  exact ⟨_, rfl, by simp⟩

theorem bilinear_some_of_ok {src : List ℕ} {sw sh dw dh : ℕ}
    (hlen : src.length = sw * sh * 4)
    (hok : bilinReadsOk src.length sw sh dw dh = true) :
    ∃ out, bilinear_resize_rgba src sw sh dw dh = some out ∧
      out.length = dw * dh * 4 := by
  unfold bilinear_resize_rgba
  by_cases he : sw = dw ∧ sh = dh
  · rw [if_pos he]
    exact ⟨src, rfl, by rw [hlen, he.1, he.2]⟩
  · rw [if_neg he, if_pos hok]
    exact ⟨_, rfl, by simp⟩

/-! ### Claim C4 -/

/-- Claim C4: for every source image buffer of size `src_w*src_h*4`, whenever
the source dimensions equal the destination dimensions, `bilinear_resize_rgba`
returns a buffer byte-identical to its input (the identity fast path returns
the input buffer itself, with no floating-point computation). -/
theorem c4_resize_identity (src : List ℕ) (sw sh : ℕ)
    (hlen : src.length = sw * sh * 4) :
    bilinear_resize_rgba src sw sh sw sh = some src := by
  simp [bilinear_resize_rgba]

/-- Witness for C4 at a concrete 1×1 image. -/
theorem c4_witness : bilinear_resize_rgba [1, 2, 3, 4] 1 1 1 1 = some [1, 2, 3, 4] :=
  c4_resize_identity [1, 2, 3, 4] 1 1 (by decide)

/-! ### Claim C6 -/

/-- Claim C6 counterexample: a 1001-byte payload of zeros — whose first four
bytes are `0,0,0,0`, not any recognized 4-byte magic sequence — is accepted
by `validate_onnx_model`, so validation does not inspect magic bytes. -/
theorem c6_counterexample :
    validate_onnx_model (List.replicate 1001 0) = true ∧
    (List.replicate 1001 (0 : ℕ)).take 4 = [0, 0, 0, 0] := by
  constructor
  · simp [validate_onnx_model]
  · simp [List.take_replicate]

/-- Claim C6 (amended): `validate_onnx_model` checks only the payload
length — payloads under 100 bytes are rejected, and a payload is accepted
exactly when its length exceeds 1000 bytes; the payload bytes (and hence any
magic sequence) are never inspected. -/
theorem c6_validate_length_only (d : List ℕ) :
    validate_onnx_model d = decide (1000 < d.length) := by
  unfold validate_onnx_model
  by_cases hlt : d.length < 100
  · rw [if_pos hlt]
    have hng : ¬ 1000 < d.length := by omega
    simp [hng]
  · rw [if_neg hlt]

/-! ### Claim C8 -/

/-- Claim C8 counterexample: under the admissible hash-map iteration order
`c8Hash` the freshly initialized registry lists its styles in an order
different from registration order. -/
theorem c8_counterexample :
    get_available_styles c8Hash engineNew ≠ registrationOrder := by decide

/-- Claim C8 (amended): `get_available_styles` returns the style names in
the hash map's iteration order, which is a function of the registry
contents (and the map's rank) alone — so two consecutive calls on an
unchanged registry return the same ordered sequence — and which is a
permutation of the registered names; but it need not equal registration
order. -/
theorem c8_styles_stable_perm :
    (∀ (hash : String → ℕ) (s₁ s₂ : EngineState),
      s₁.model_metadata = s₂.model_metadata →
      get_available_styles hash s₁ = get_available_styles hash s₂) ∧
    (∀ (hash : String → ℕ) (st : EngineState),
      (get_available_styles hash st).Perm (st.model_metadata.map Prod.fst)) := by
  constructor
  · intro hash s₁ s₂ hmeta
    unfold get_available_styles
    rw [hmeta]
  · intro hash st
    exact List.perm_insertionSort _ _

/-- Witness for C8: two calls on the same initialized registry agree. -/
theorem c8_witness :
    get_available_styles c8Hash engineNew = get_available_styles c8Hash engineNew :=
  c8_styles_stable_perm.1 c8Hash engineNew engineNew rfl

/-! ### Claim C9 -/

/-- Claim C9 counterexample: with the same engine state, image and style, a
callback that returns normally yields a successful result, while a callback
that throws makes `transfer_style` fail with the thrown value — the progress
callback does affect control flow and the returned value. -/
theorem c9_counterexample :
    transfer_style (fun _ => 0) (fun _ => 0) ⟨true, [c9Style]⟩ [] c9Style 50
        (fun _ => CbOut.done) = TransferOut.ok [] ∧
    transfer_style (fun _ => 0) (fun _ => 0) ⟨true, [c9Style]⟩ [] c9Style 50
        (fun _ => CbOut.threw boomMsg) = TransferOut.err boomMsg ∧
    TransferOut.ok [] ≠ TransferOut.err boomMsg :=
  ⟨by decide, by decide, by decide⟩

/-- Claim C9 (amended): as long as every callback invocation returns
normally, the result of `transfer_style` is independent of which progress
callback is supplied; but a callback that throws aborts the run with the
thrown value (each `call1(...)?` propagates it), so the callback can affect
control flow. -/
theorem c9_callback_independent (sinF cosF : ℚ → ℚ) (st : EngineS)
    (image_data : List ℕ) (style_name : String) (style_strength : ℚ)
    (cb₁ cb₂ : ℕ → CbOut)
    (h₁ : ∀ n, cb₁ n = CbOut.done) (h₂ : ∀ n, cb₂ n = CbOut.done) :
    transfer_style sinF cosF st image_data style_name style_strength cb₁ =
      transfer_style sinF cosF st image_data style_name style_strength cb₂ := by
  simp only [transfer_style, h₁, h₂]

/-- Witness for C9 at concrete non-throwing callbacks. -/
theorem c9_witness :
    transfer_style (fun _ => 0) (fun _ => 0) ⟨true, [c9Style]⟩ [1, 2, 3, 4] c9Style 50
        (fun _ => CbOut.done) =
      transfer_style (fun _ => 0) (fun _ => 0) ⟨true, [c9Style]⟩ [1, 2, 3, 4] c9Style 50
        (fun _ => CbOut.done) :=
  c9_callback_independent (fun _ => 0) (fun _ => 0) ⟨true, [c9Style]⟩ [1, 2, 3, 4]
    c9Style 50 (fun _ => CbOut.done) (fun _ => CbOut.done) (fun _ => rfl) (fun _ => rfl)

/-! ### Claim C10 -/

/-- Claim C10: for every pair of byte buffers of equal length that is a
multiple of 4 and every strength value, `blend_rgba` performs only in-bounds
indexing (no panic) and returns `Ok` with a buffer of exactly the length of
its first input in which the alpha byte of every pixel is 255. -/
theorem c10_blend_safe (base top : List ℕ) (width height : ℕ) (s : ℚ)
    (hlen : base.length = top.length) (hmod : base.length % 4 = 0) :
    ∃ out, blend_rgba base top width height s = .ok out ∧
      out.length = base.length ∧
      ∀ k, k < base.length → k % 4 = 3 → out.getD k 0 = 255 := by
  unfold blend_rgba
  rw [if_neg (by simp [hlen]), if_pos hmod]
  refine ⟨_, rfl, by simp, ?_⟩
  intro k hk hk4
  rw [getD_map_range, if_pos hk, if_pos hk4]

/-- Witness for C10 at concrete buffers and an out-of-range strength. -/
theorem c10_witness :
    ∃ out, blend_rgba [0, 0, 0, 0] [255, 0, 0, 0] 1 1 (-5) = .ok out ∧
      out.length = ([0, 0, 0, 0] : List ℕ).length ∧
      ∀ k, k < ([0, 0, 0, 0] : List ℕ).length → k % 4 = 3 → out.getD k 0 = 255 :=
  c10_blend_safe [0, 0, 0, 0] [255, 0, 0, 0] 1 1 (-5) (by decide) (by decide)

/-! ### Claim C5 -/

/-- Claim C5: after a `load_model` call that returns success, the style is
cached — a second `load_model` for the same name returns success immediately,
does not invoke the byte-fetch collaborator (third component `false`), and
leaves the engine state (in particular the cache entry) unchanged.  Hence
two sequential loads whose first succeeds perform at most one fetch. -/
theorem c5_load_idempotent (st : EngineState) (style_name : String)
    (fetch : String → Option (List ℕ)) (st' : EngineState) (fetched : Bool)
    (h : load_model st style_name fetch = (st', LoadResult.ok, fetched)) :
    ∀ fetch₂, load_model st' style_name fetch₂ = (st', LoadResult.ok, false) := by
  intro fetch₂
  unfold load_model at h ⊢
  cases hm : lookupA style_name st.model_metadata with
  | none =>
    rw [hm] at h
    simp at h
  | some metadata =>
    rw [hm] at h
    dsimp only at h
    by_cases hl : (lookupA style_name st.loaded_models).getD false = true
    · rw [if_pos hl] at h
      injection h with h1 h2
      subst h1
      rw [hm]
      dsimp only
      rw [if_pos hl]
    · rw [if_neg hl] at h
      cases hf : fetch metadata.url with
      | none =>
        rw [hf] at h
        simp at h
      | some model_data =>
        rw [hf] at h
        dsimp only at h
        by_cases hv : validate_onnx_model model_data = true
        · rw [if_neg (not_not_intro hv)] at h
          injection h with h1 h2
          subst h1
          dsimp only
          rw [hm]
          dsimp only
          rw [lookupA_insertA_self]
          simp
        · rw [if_pos hv] at h
          simp at h

/-- Witness for C5: a concrete successful load of van-gogh from the fresh
engine, after which a reload performs no fetch and changes nothing. -/
theorem c5_witness :
    load_model c5Triple.1 vanGoghName (fun _ => none) =
      (c5Triple.1, LoadResult.ok, false) := by
  have h2 : c5Triple.2.1 = LoadResult.ok := by decide
  have h : load_model engineNew vanGoghName c5Fetch =
      (c5Triple.1, c5Triple.2.1, c5Triple.2.2) := rfl
  rw [h2] at h
  exact c5_load_idempotent engineNew vanGoghName c5Fetch c5Triple.1 c5Triple.2.2 h
    (fun _ => none)

/-! ### Claim C7 -/

/-- Claim C7 counterexample: `nchw_from_rgba` performs no dimension
validation — a degenerate `0 × 0` image is encoded successfully to the empty
tensor (no `InvalidDimensions` failure, and a tensor is produced), and a
buffer of 8 bytes with `w = h = 1` (so `image.length ≠ w*h*4`) is also
encoded successfully, to a 3-element tensor. -/
theorem c7_counterexample :
    nchw_from_rgba [] 0 0 (fun _ => 0) (fun _ => 1) 1 = some [] ∧
    (nchw_from_rgba (List.replicate 8 0) 1 1 (fun _ => 0) (fun _ => 1) 1).map
        List.length = some 3 := by
  constructor
  · simp [nchw_from_rgba, nchwReadsOk]
  · have hg : nchwReadsOk (List.replicate 8 (0 : ℕ)).length 1 1 = true := by decide
    unfold nchw_from_rgba
    rw [if_pos hg]
    simp

/-- Claim C7 (amended): the codec never fails with `InvalidDimensions` — it
performs no dimension check at all.  For `width = 0` or `height = 0` the
encoder succeeds before touching the buffer and returns the empty tensor,
and whenever the buffer is at least `w*h*4` bytes long (in particular when
`image.length ≠ w*h*4` because it is longer) it succeeds and produces a
tensor of length `3*w*h`; a buffer that is too short causes an out-of-bounds
panic (`none`), not a typed error.  (`StylizerError::InvalidDims` is only
ever produced by `blend_rgba`.) -/
theorem c7_nchw_no_dimension_check :
    (∀ (rgba : List ℕ) (w h : ℕ) (mean std : ℕ → ℚ) (scale : ℚ),
      w = 0 ∨ h = 0 → nchw_from_rgba rgba w h mean std scale = some []) ∧
    (∀ (rgba : List ℕ) (w h : ℕ) (mean std : ℕ → ℚ) (scale : ℚ),
      w * h * 4 ≤ rgba.length →
      ∃ t, nchw_from_rgba rgba w h mean std scale = some t ∧
        t.length = 3 * (w * h)) := by
  constructor
  · intro rgba w h mean std scale hwh
    rcases hwh with rfl | rfl
    · simp [nchw_from_rgba, nchwReadsOk]
    · simp [nchw_from_rgba, nchwReadsOk]
  · intro rgba w h mean std scale hlen
    exact nchw_some_of_length mean std scale hlen

/-- Witness for C7 at concrete inputs: a degenerate `0 × 5` image and a
correctly sized 1×1 image. -/
theorem c7_witness :
    nchw_from_rgba [1, 2, 3] 0 5 (fun _ => 0) (fun _ => 1) 1 = some [] ∧
    ∃ t, nchw_from_rgba [10, 20, 30, 40] 1 1 (fun _ => 0) (fun _ => 1) 1 = some t ∧
      t.length = 3 * (1 * 1) :=
  ⟨c7_nchw_no_dimension_check.1 [1, 2, 3] 0 5 (fun _ => 0) (fun _ => 1) 1 (Or.inl rfl),
   c7_nchw_no_dimension_check.2 [10, 20, 30, 40] 1 1 (fun _ => 0) (fun _ => 1) 1
     (by decide)⟩

/-! ### Claim C3 -/

/-- Claim C3 counterexample: at strength `0.0`, `blend_rgba` does not return
its first argument — the alpha byte is forced to 255 (here `0 ↦ 255`), which
is not a rounding effect. -/
theorem c3_counterexample :
    blend_rgba [5, 6, 7, 0] [5, 6, 7, 0] 1 1 0 = .ok [5, 6, 7, 255] ∧
    ([5, 6, 7, 255] : List ℕ) ≠ [5, 6, 7, 0] := by
  constructor
  · simp [blend_rgba, List.range_succ, u8castRound, rround]
    norm_num
    decide
  · decide

/-- Claim C3 (amended): `blend_rgba o p _ _ 0` returns `o` and
`blend_rgba o p _ _ 1` returns `p` on the R, G, B bytes of every pixel
(exactly, no rounding needed), while every alpha byte of the output is
forced to 255 regardless of the inputs; and for every strength, the
strength is clamped to `[0, 1]` before use and the call succeeds (returns
`Ok`, never an error) on equal-length buffers whose length is a multiple
of 4. -/
theorem c3_blend_endpoints_and_clamp :
    (∀ (o p : List ℕ) (width height : ℕ),
      o.length = p.length → o.length % 4 = 0 → (∀ b ∈ o, b ≤ 255) →
      ∃ r, blend_rgba o p width height 0 = .ok r ∧ r.length = o.length ∧
        (∀ k, k < o.length → k % 4 ≠ 3 → r.getD k 0 = o.getD k 0) ∧
        (∀ k, k < o.length → k % 4 = 3 → r.getD k 0 = 255)) ∧
    (∀ (o p : List ℕ) (width height : ℕ),
      o.length = p.length → o.length % 4 = 0 → (∀ b ∈ p, b ≤ 255) →
      ∃ r, blend_rgba o p width height 1 = .ok r ∧ r.length = o.length ∧
        (∀ k, k < o.length → k % 4 ≠ 3 → r.getD k 0 = p.getD k 0) ∧
        (∀ k, k < o.length → k % 4 = 3 → r.getD k 0 = 255)) ∧
    (∀ (o p : List ℕ) (width height : ℕ) (s : ℚ),
      blend_rgba o p width height s = blend_rgba o p width height (min 1 (max 0 s)) ∧
      (o.length = p.length → o.length % 4 = 0 →
        ∃ r, blend_rgba o p width height s = .ok r)) := by
  refine ⟨?_, ?_, ?_⟩
  · intro o p width height hlen hmod hbytes
    unfold blend_rgba
    rw [if_neg (by simp [hlen]), if_pos hmod]
    rw [show min 1 (max 0 (0 : ℚ)) = 0 by norm_num]
    refine ⟨_, rfl, by simp, ?_, ?_⟩
    · intro k hk hk4
      rw [getD_map_range, if_pos hk, if_neg hk4]
      rw [show (1 - (0 : ℚ)) * ((o.getD k 0 : ℕ) : ℚ) + 0 * ((p.getD k 0 : ℕ) : ℚ) =
        ((o.getD k 0 : ℕ) : ℚ) by ring]
      exact u8castRound_byte (getD_le_of_mem hbytes hk)
    · intro k hk hk4
      rw [getD_map_range, if_pos hk, if_pos hk4]
  · intro o p width height hlen hmod hbytes
    unfold blend_rgba
    rw [if_neg (by simp [hlen]), if_pos hmod]
    rw [show min 1 (max 0 (1 : ℚ)) = 1 by norm_num]
    refine ⟨_, rfl, by simp, ?_, ?_⟩
    · intro k hk hk4
      rw [getD_map_range, if_pos hk, if_neg hk4]
      rw [show (1 - (1 : ℚ)) * ((o.getD k 0 : ℕ) : ℚ) + 1 * ((p.getD k 0 : ℕ) : ℚ) =
        ((p.getD k 0 : ℕ) : ℚ) by ring]
      exact u8castRound_byte (getD_le_of_mem hbytes (hlen ▸ hk))
    · intro k hk hk4
      rw [getD_map_range, if_pos hk, if_pos hk4]
  · intro o p width height s
    constructor
    · simp only [blend_rgba, clamp01_idem]
    · intro hlen hmod
      unfold blend_rgba
      rw [if_neg (by simp [hlen]), if_pos hmod]
      exact ⟨_, rfl⟩

/-- Witness for C3 at concrete buffers. -/
theorem c3_witness :
    ∃ r, blend_rgba [1, 2, 3, 4] [9, 9, 9, 9] 1 1 0 = .ok r ∧
      r.length = ([1, 2, 3, 4] : List ℕ).length ∧
      (∀ k, k < ([1, 2, 3, 4] : List ℕ).length → k % 4 ≠ 3 →
        r.getD k 0 = ([1, 2, 3, 4] : List ℕ).getD k 0) ∧
      (∀ k, k < ([1, 2, 3, 4] : List ℕ).length → k % 4 = 3 → r.getD k 0 = 255) :=
  c3_blend_endpoints_and_clamp.1 [1, 2, 3, 4] [9, 9, 9, 9] 1 1 (by decide) (by decide)
    (by decide)

/-! ### Claim C2 -/

/-- Claim C2: for every RGBA image of size `w*h*4` (`w, h ≥ 1`, bytes in
the `u8` range) and every normalization profile with `std_c ≠ 0` for each
channel and `scale ≠ 0`, decoding the encoding of the image reproduces its
R, G, B channels within 8-bit rounding error — at most one unit per channel
value (over the exact rational model the round-trip is in fact exact). -/
theorem c2_roundtrip (rgba : List ℕ) (w h : ℕ) (mean std : ℕ → ℚ) (scale : ℚ)
    (hw : 1 ≤ w) (hh : 1 ≤ h) (hlen : rgba.length = w * h * 4)
    (hbytes : ∀ b ∈ rgba, b ≤ 255)
    (hstd : ∀ c, c < 3 → std c ≠ 0) (hscale : scale ≠ 0) :
    ∃ t out, nchw_from_rgba rgba w h mean std scale = some t ∧
      rgba_from_nchw t w h mean std scale = some out ∧
      out.length = rgba.length ∧
      ∀ pN, pN < w * h → ∀ c, c < 3 →
        ((out.getD (pN * 4 + c) 0 : ℤ) - (rgba.getD (pN * 4 + c) 0 : ℤ)).natAbs ≤ 1 := by
  have hwh : 0 < w * h := Nat.mul_pos hw hh
  have hok : nchwReadsOk rgba.length w h = true := nchwReadsOk_true (le_of_eq hlen.symm)
  have ht : nchw_from_rgba rgba w h mean std scale =
      some ((List.range (3 * (w * h))).map fun j =>
        (((rgba.getD ((j % (w * h)) * 4 + j / (w * h)) 0 : ℕ) : ℚ) / 255 -
          mean (j / (w * h))) / std (j / (w * h)) * scale) := by
    unfold nchw_from_rgba
    rw [if_pos hok]
  set T : List ℚ := (List.range (3 * (w * h))).map fun j =>
    (((rgba.getD ((j % (w * h)) * 4 + j / (w * h)) 0 : ℕ) : ℚ) / 255 -
      mean (j / (w * h))) / std (j / (w * h)) * scale with hTdef
  have hTlen : T.length = 3 * (w * h) := by
    rw [hTdef]
    simp
  have hok2 : nchwPlaneReadsOk T.length (w * h) = true := by
    rw [hTlen]
    exact nchwPlaneReadsOk_true (le_refl _)
  have hout : rgba_from_nchw T w h mean std scale =
      some ((List.range (w * h * 4)).map fun j =>
        if j % 4 = 3 then 255
        else u8clampFloor ((T.getD ((j % 4) * (w * h) + j / 4) 0 / scale * std (j % 4) +
          mean (j % 4)) * 255)) := by
    unfold rgba_from_nchw
    rw [if_pos hok2]
  refine ⟨T, _, ht, hout, by simp [hlen], ?_⟩
  intro pN hp c hc
  have hidx : pN * 4 + c < w * h * 4 := by omega
  rw [getD_map_range, if_pos hidx]
  have hm4 : (pN * 4 + c) % 4 = c := by omega
  have hd4 : (pN * 4 + c) / 4 = pN := by omega
  rw [hm4, hd4, if_neg (by omega : ¬ c = 3)]
  have hTidx : c * (w * h) + pN < 3 * (w * h) := by
    have h2 : c * (w * h) ≤ 2 * (w * h) := Nat.mul_le_mul_right _ (by omega)
    omega
  rw [hTdef, getD_map_range, if_pos hTidx]
  have hdm := @plane_div_mod (w * h) c pN hwh hp
  rw [hdm.1, hdm.2]
  have hb : rgba.getD (pN * 4 + c) 0 ≤ 255 :=
    getD_le_of_mem hbytes (by rw [hlen]; exact hidx)
  have hsc := hstd c hc
  have key : (((((rgba.getD (pN * 4 + c) 0 : ℕ) : ℚ) / 255 - mean c) / std c * scale) /
        scale * std c + mean c) * 255 = ((rgba.getD (pN * 4 + c) 0 : ℕ) : ℚ) := by
    field_simp
    ring
  rw [key, u8clampFloor_byte hb]
  simp

/-- Witness for C2 at a concrete 1×1 image with the scenario profile
(mean 0, std 1, scale 255). -/
theorem c2_witness :
    ∃ t out, nchw_from_rgba [10, 20, 30, 40] 1 1 (fun _ => 0) (fun _ => 1) 255 = some t ∧
      rgba_from_nchw t 1 1 (fun _ => 0) (fun _ => 1) 255 = some out ∧
      out.length = ([10, 20, 30, 40] : List ℕ).length ∧
      ∀ pN, pN < 1 * 1 → ∀ c, c < 3 →
        ((out.getD (pN * 4 + c) 0 : ℤ) -
          (([10, 20, 30, 40] : List ℕ).getD (pN * 4 + c) 0 : ℤ)).natAbs ≤ 1 :=
  c2_roundtrip [10, 20, 30, 40] 1 1 (fun _ => 0) (fun _ => 1) 255 (by decide) (by decide)
    (by decide) (by decide) (fun c _ => one_ne_zero) (by norm_num)

/-! ### Claim C1 -/

theorem run_style_eq_some {meta : ModelMeta} {infer : List ℚ → Option (List ℚ)}
    {rgba : List ℕ} {w h : ℕ} {r1 : List ℕ} {t o : List ℚ} {out : List ℕ}
    (h1 : bilinear_resize_rgba rgba w h meta.input_width meta.input_height = some r1)
    (h2 : nchw_from_rgba r1 meta.input_width meta.input_height meta.mean meta.std
      meta.scale = some t)
    (h3 : infer t = some o)
    (h4 : rgba_from_nchw o meta.input_width meta.input_height meta.mean meta.std
      meta.scale = some out) :
    run_style meta infer rgba w h = some out := by
  simp [run_style, h1, h2, h3, h4]

/-- Claim C1 counterexample: a 2×2 request image run through `run_style`
with a 1×1 model succeeds and returns a buffer of length `1*1*4` — the model
resolution — not `2*2*4` as the claim requires; no resize back to the source
resolution and no strength blend happens inside the orchestrator (it does
not even receive the strength). -/
theorem c1_counterexample :
    (run_style c1Meta (fun t => some t) c1SrcImg 2 2).map List.length =
      some (1 * 1 * 4) ∧ (1 * 1 * 4 : ℕ) ≠ 2 * 2 * 4 := by
  constructor
  · have hg : bilinReadsOk c1SrcImg.length 2 2 1 1 = true := by
      simp [bilinReadsOk, bilinCorners, c1SrcImg]
    obtain ⟨r1, hr1, hl1⟩ := @bilinear_some_of_ok c1SrcImg 2 2 1 1 (by decide) hg
    obtain ⟨t, ht2, hlt⟩ := @nchw_some_of_length r1 1 1 c1Meta.mean c1Meta.std
      c1Meta.scale (le_of_eq hl1.symm)
    obtain ⟨o2, ho2, hlo⟩ := @rgba_some_of_length t 1 1 c1Meta.mean c1Meta.std
      c1Meta.scale (le_of_eq hlt.symm)
    have hrun : run_style c1Meta (fun t => some t) c1SrcImg 2 2 = some o2 :=
      run_style_eq_some hr1 ht2 rfl ho2
    rw [hrun]
    simp [hlo]
  · decide

/-- Claim C1 (amended): `run_style` returns the stylized image at the
model's input resolution — every successful run returns a buffer of length
`input_width * input_height * 4` — and performs no resize back to the
request's source resolution and no strength blend; scaling back and
blending are left to the caller (the frontend, optionally via
`blend_rgba`). -/
theorem c1_run_style_model_resolution (meta : ModelMeta)
    (infer : List ℚ → Option (List ℚ)) (rgba : List ℕ) (w h : ℕ) (out : List ℕ)
    (hrun : run_style meta infer rgba w h = some out) :
    out.length = meta.input_width * meta.input_height * 4 := by
  simp only [run_style, bind, Option.bind_eq_some] at hrun
  obtain ⟨r1, h1, hrun⟩ := hrun
  obtain ⟨t, h2, hrun⟩ := hrun
  obtain ⟨o, h3, hrun⟩ := hrun
  exact rgba_from_nchw_length hrun

/-- Witness for C1: a concrete 1×1 request through the 1×1 model succeeds,
and the claim theorem gives its length. -/
theorem c1_witness :
    ∃ out, run_style c1Meta (fun t => some t) [10, 20, 30, 40] 1 1 = some out ∧
      out.length = c1Meta.input_width * c1Meta.input_height * 4 := by
  have h1 : bilinear_resize_rgba [10, 20, 30, 40] 1 1 1 1 = some [10, 20, 30, 40] := by
    simp [bilinear_resize_rgba]
  obtain ⟨t, h2, hlt⟩ := @nchw_some_of_length [10, 20, 30, 40] 1 1 c1Meta.mean
    c1Meta.std c1Meta.scale (by decide)
  obtain ⟨o2, h4, hlo⟩ := @rgba_some_of_length t 1 1 c1Meta.mean c1Meta.std
    c1Meta.scale (le_of_eq hlt.symm)
  have hrun : run_style c1Meta (fun t => some t) [10, 20, 30, 40] 1 1 = some o2 :=
    run_style_eq_some h1 h2 rfl h4
  exact ⟨o2, hrun, c1_run_style_model_resolution c1Meta _ _ 1 1 o2 hrun⟩

end NeuralStyleWasm
